import Mathlib

/-!
Shallow embedding of the render ingestion, versioning and composite pipeline
of the vray-ps-vr repository (file_manager.py, ps_macros.py,
vray_script_setup.py), together with theorems settling the frozen claims.

Directory names handled by the version allocator are modelled as lists of
characters (Python strings compared by code point); file names handled by
the classifier are modelled as Lean strings.  Filesystem contents are
explicit lists, the Photoshop session is a boolean availability flag, and
Python exceptions (KeyError, UnboundLocalError) are explicit error values.
-/

namespace VrayPsVr

/-! ## Path scanning and version allocation (vray_script_setup.py, file_manager.py) -/

/-- Python string comparison on code points: the order used by
`entry_list.sort(reverse=True)` in both copies of `_get_latest_entry`. -/
def strLt : List Char → List Char → Bool
  | _, [] => false
  | [], _ :: _ => true
  | a :: as, b :: bs => if a < b then true else if b < a then false else strLt as bs

/-- One step of taking the larger of two names. -/
def maxStep (acc x : List Char) : List Char := if strLt acc x then x else acc

/-- Embedding of `_get_latest_entry` (vray_script_setup.py lines 145-157 and
file_manager.py lines 133-145): collect the subdirectory names, sort in
reverse, return the first; equivalently, return the maximum in the Python
string order.  There is no filter on names starting with a dot.  The empty
result `''` of the Python code is modelled as `none`. -/
def get_latest_entry : List (List Char) → Option (List Char)
  | [] => none
  | e :: es => some (es.foldl maxStep e)

/-- Numeric value of a decimal digit character, as `int()` applied to a
one-character string; `none` models the ValueError on a non-digit. -/
def charDigitVal (c : Char) : Option Nat :=
  if c.isDigit then some (c.toNat - 48) else none

/-- Embedding of `_determine_version_number` (vray_script_setup.py lines
140-143): take the latest entry of the renderings root, read the character
at position 7, parse it as one decimal digit and add one.  `none` models the
IndexError on a short or empty name and the ValueError on a non-digit. -/
def determine_version_number (dirs : List (List Char)) : Option Nat :=
  match get_latest_entry dirs with
  | none => none
  | some latest =>
    match latest[7]? with
    | none => none
    | some c =>
      match charDigitVal c with
      | none => none
      | some i => some (i + 1)

/-- Embedding of `_get_output_path` (vray_script_setup.py lines 118-138),
restricted to the directory-name computation: the base path, carrier and
`renderings` prefix are common to every name and are dropped; `dirs` is the
set of existing subdirectory names of the renderings root and `today` the
formatted current date.  The `os.path.isdir` test is membership of the
candidate name in `dirs`. -/
def get_output_path (dirs : List (List Char)) (today : List Char) : Option (List Char) :=
  let out_dir := today ++ [('v'), ('0')]
  if out_dir ∈ dirs then
    match determine_version_number dirs with
    | none => none
    | some index => some (today ++ ('v') :: Nat.toDigits 10 index)
  else
    some out_dir

/-- Observer for stating the claims: the version index a directory name
carries for the date `today`, namely the decimal value of the digits after
the prefix `today ++ "v"`; `none` when the name is not a version directory
of that date. -/
def digitsVal (cs : List Char) : Option Nat :=
  if cs.isEmpty then none
  else if cs.all Char.isDigit then
    some (cs.foldl (fun a c => a * 10 + (c.toNat - 48)) 0)
  else none

/-- Version index of name `n` for date `today` (a six-character date). -/
def parseIdx (today n : List Char) : Option Nat :=
  if n.take 7 = today ++ [('v')] then digitsVal (n.drop 7) else none

/-! ## Asset classification (file_manager.py, `_get_rendered_imgs`) -/

/-- The fixed overlay role set `LAYER` of file_manager.py line 29. -/
def LAYER : List String := [("Ambient_Occlusion"), ("Glare")]

/-- Helper for `splitOnChar`, accumulating the current segment reversed. -/
def splitOnCharAux (sep : Char) : List Char → List Char → List (List Char)
  | [], acc => [acc.reverse]
  | c :: rest, acc =>
    if c = sep then acc.reverse :: splitOnCharAux sep rest []
    else splitOnCharAux sep rest (c :: acc)

/-- Python `s.split(sep)` for a one-character separator, as used with
`'.'` by the classifier and with `'/'` by `os.path.basename`. -/
def splitOnChar (sep : Char) (s : String) : List String :=
  (splitOnCharAux sep s.data []).map List.asString

/-- Python `s.startswith('.')`. -/
def startsWithDot (s : String) : Bool :=
  match s.data with
  | c :: _ => c = ('.')
  | [] => false

/-- Python `s.endswith('.png')`. -/
def endsWithPng (s : String) : Bool :=
  s.data.reverse.take 4 == [('g'), ('n'), ('p'), ('.')]

/-- Role-to-file mapping of one logical asset (a Python dict, insertion
ordered). -/
abbrev RoleMap := List (String × String)

/-- The classifier result `file_tree` (a Python dict of dicts). -/
abbrev FileTree := List (String × RoleMap)

/-- Python `d[k]` read access on an insertion-ordered dict. -/
def alistLookup {α : Type} : List (String × α) → String → Option α
  | [], _ => none
  | (k, v) :: rest, key => if k = key then some v else alistLookup rest key

/-- Python `d[k] = v` on an insertion-ordered dict: replace in place when the
key exists, append otherwise. -/
def alistSet {α : Type} : List (String × α) → String → α → List (String × α)
  | [], key, v => [(key, v)]
  | (k, w) :: rest, key, v =>
    if k = key then (key, v) :: rest else (k, w) :: alistSet rest key v

/-- Python `file_tree[key][role] = entry`; the key is always present when the
source executes this statement, the `none` arm totalises the function. -/
def setRole (tree : FileTree) (key role file : String) : FileTree :=
  match alistLookup tree key with
  | some rm => alistSet tree key (alistSet rm role file)
  | none => alistSet tree key [(role, file)]

/-- Embedding of the loop body of `_get_rendered_imgs` (file_manager.py lines
178-195) for one directory entry `fname`: skip hidden entries and entries not
ending in `.png`; otherwise split the name on dots, register the first
segment as a key, and file the entry under the overlay role named by the
second segment (when there are more than two segments and the segment is in
`LAYER`) or under `base` (when there are exactly two segments). -/
def classifyStep (tree : FileTree) (fname : String) : FileTree :=
  if startsWithDot fname then tree
  else if endsWithPng fname = false then tree
  else
    match splitOnChar ('.') fname with
    | [] => tree
    | s0 :: rest =>
      let t1 := if (alistLookup tree s0).isSome then tree else alistSet tree s0 []
      match rest with
      | [_] => setRole t1 s0 ("base") fname
      | s1 :: _ :: _ => if LAYER.contains s1 then setRole t1 s0 s1 fname else t1
      | [] => t1

/-- Embedding of `_get_rendered_imgs` on the file listing of the selected
batch directory (the choice of the latest directory is `get_latest_entry`
and is modelled separately). -/
def get_rendered_imgs (files : List String) : FileTree :=
  files.foldl classifyStep []

/-- The file recorded for key `key` under role `role`. -/
def roleLookup (tree : FileTree) (key role : String) : Option String :=
  (alistLookup tree key).bind (fun rm => alistLookup rm role)

/-- Where a binding in the classifier output must come from: a visible
`.png` member of the listing whose first dot-segment is the key, classified
as `base` on exactly two segments and as a known overlay role on more than
two segments whose second is that role. -/
def FileOrigin (files : List String) (key role f : String) : Prop :=
  f ∈ files ∧ startsWithDot f = false ∧ endsWithPng f = true ∧
    ∃ rest, splitOnChar ('.') f = key :: rest ∧
      ((role = ("base") ∧ rest.length = 1) ∨
       (LAYER.contains role = true ∧ 2 ≤ rest.length ∧ rest.head? = some role))

/-! ## Composite creation (ps_macros.py, `create_new_psd` and helpers) -/

/-- Photoshop blend-mode constants used by the source. -/
def PS_BLEND_MODE_SCREEN : Nat := 9

def PS_BLEND_MODE_MULTIPLY : Nat := 5

/-- A layer inside a composite document: its name, the image file bound to
it, and its blend mode and opacity (percent) when the source sets them away
from the Photoshop defaults. -/
structure PsdLayer where
  name : String
  source : String
  blendMode : Option Nat
  opacity : Option Nat
deriving DecidableEq

/-- Python exceptions the modelled code can raise. -/
inductive PyError where
  | keyError (k : String)
  | unboundLocal (v : String)
deriving DecidableEq

/-- Embedding of `_insert_render_stack` (ps_macros.py lines 253-273): create
a group, add a `base` smart layer bound to the base file, then an `ambient`
layer (multiply at 70) when the `Ambient_Occlusion` role is present and a
`glare` layer (screen at 40) when the `Glare` role is present.  The final
Python statement `return (groupname, base_group, base_layer, ambient_layer,
glare_layer)` reads `ambient_layer` and `glare_layer` unconditionally, so it
raises UnboundLocalError whenever one of the optional branches did not run;
the result pairs the group content built so far with the raised error, if
any. -/
def insert_render_stack (img_layers : RoleMap) (groupname : String) :
    (String × List PsdLayer) × Option PyError :=
  match alistLookup img_layers ("base") with
  | none => ((groupname, []), some (PyError.keyError ("base")))
  | some basefile =>
    let layers := [PsdLayer.mk ("base") basefile none none]
    let layers :=
      match alistLookup img_layers ("Ambient_Occlusion") with
      | some f => layers ++ [PsdLayer.mk ("ambient") f (some PS_BLEND_MODE_MULTIPLY) (some 70)]
      | none => layers
    let layers :=
      match alistLookup img_layers ("Glare") with
      | some f => layers ++ [PsdLayer.mk ("glare") f (some PS_BLEND_MODE_SCREEN) (some 40)]
      | none => layers
    if (alistLookup img_layers ("Ambient_Occlusion")).isSome = false then
      ((groupname, layers), some (PyError.unboundLocal ("ambient_layer")))
    else if (alistLookup img_layers ("Glare")).isSome = false then
      ((groupname, layers), some (PyError.unboundLocal ("glare_layer")))
    else
      ((groupname, layers), none)

/-- Result of a call to `create_new_psd`: a normal boolean return or an
uncaught Python exception. -/
inductive CreateResult where
  | ret (b : Bool)
  | exn (e : PyError)
deriving DecidableEq

/-- `os.path.basename`: the part after the last path separator. -/
def basenameStr (s : String) : String :=
  ((splitOnChar ('/') s).reverse).headD s

/-- Join segments back with dots. -/
def joinWithDot : List String → String
  | [] => ("")
  | [s] => s
  | s :: rest => s ++ (".") ++ joinWithDot rest

/-- First component of `os.path.splitext`: drop the last dot-extension.
The model covers names with an ordinary stem (the classifier never hands
a hidden name to `create_new_psd`, so the special case of a leading dot is
not modelled). -/
def stripExtension (s : String) : String :=
  let parts := splitOnChar ('.') s
  if parts.length ≤ 1 then s else joinWithDot parts.dropLast

/-- The artifact path `create_new_psd` writes for a given asset and output
directory. -/
def psdPath (output_path basefile : String) : String :=
  output_path ++ ("/") ++ stripExtension (basenameStr basefile) ++ (".psd")

/-- The flattened preview path beside the artifact. -/
def jpgPath (output_path basefile : String) : String :=
  output_path ++ ("/JPEG/") ++ stripExtension (basenameStr basefile) ++ (".jpg")

/-- The three error lines logged by the overwrite guard of `create_new_psd`
(ps_macros.py lines 201-203). -/
def existsLog (output_file : String) : List String :=
  [("Attention: This file already exists! Overwriting is not allowed."),
   ("Please check the file and rename or delete it manually."),
   output_file]

/-- Embedding of `create_new_psd` (ps_macros.py lines 170-233).  `editorOk`
is the outcome of `_prepare_photoshop` (its warning log lines stay inside
that helper and are not modelled); `fs` is the list of files existing on
disk.  Steps, in source order: fail when the editor is unreachable; read the
base role (KeyError when absent); refuse to overwrite an existing artifact
file, leaving the filesystem unchanged and logging the three error lines;
otherwise build the optional `background` group and the `content` group
(either may raise, in which case nothing was saved), then save the artifact
and export the preview.  Returns (result, filesystem, error log). -/
def create_new_psd (editorOk : Bool) (img_layers : RoleMap) (output_path : String)
    (bg_layers : Option RoleMap) (fs : List String) :
    CreateResult × List String × List String :=
  if editorOk = false then (CreateResult.ret false, fs, [])
  else
    match alistLookup img_layers ("base") with
    | none => (CreateResult.exn (PyError.keyError ("base")), fs, [])
    | some basefile =>
      let output_file := psdPath output_path basefile
      if fs.contains output_file then
        (CreateResult.ret false, fs, existsLog output_file)
      else
        let bgErr : Option PyError :=
          match bg_layers with
          | some bg => (insert_render_stack bg ("background")).2
          | none => none
        match bgErr with
        | some e => (CreateResult.exn e, fs, [])
        | none =>
          match (insert_render_stack img_layers ("content")).2 with
          | some e => (CreateResult.exn e, fs, [])
          | none =>
            (CreateResult.ret true, fs ++ [output_file, jpgPath output_path basefile], [])

/-! ## Composite update (ps_macros.py, `update_all_smartlayer`) -/

/-- A named layer group of a composite document. -/
structure PsGroup where
  name : String
  layers : List PsdLayer
deriving DecidableEq

/-- A composite document: its layer groups in order. -/
structure PsDoc where
  groups : List PsGroup
deriving DecidableEq

/-- The asset role key the update loop reads for a given layer name
(ps_macros.py lines 153-158): `base`, `glare` and `ambient` layers are
rebound from the `base`, `Glare` and `Ambient_Occlusion` roles; any other
layer name matches no branch. -/
def roleKeyForLayer (layerName : String) : Option String :=
  if layerName = ("base") then some ("base")
  else if layerName = ("glare") then some ("Glare")
  else if layerName = ("ambient") then some ("Ambient_Occlusion")
  else none

/-- The layer as the update loop leaves it when every needed role key is
present: recognised names are rebound to the asset file (settings kept),
other layers are untouched. -/
def replacedLayer (asset : RoleMap) (l : PsdLayer) : PsdLayer :=
  match roleKeyForLayer l.name with
  | none => l
  | some k =>
    match alistLookup asset k with
    | some f => PsdLayer.mk l.name f l.blendMode l.opacity
    | none => l

/-- All role keys the update loop would read for this layer are present in
the asset (so the loop cannot raise KeyError on it). -/
def layerKeysOk (asset : RoleMap) (l : PsdLayer) : Bool :=
  match roleKeyForLayer l.name with
  | some k => (alistLookup asset k).isSome
  | none => true

/-- The update loop over the layers of the located group: process layers in
order; a recognised layer name whose role key is missing from the asset
raises KeyError there, leaving that layer and the following ones untouched.
Returns the resulting layer list and the raised error, if any. -/
def processLayers (asset : RoleMap) : List PsdLayer → List PsdLayer × Option String
  | [] => ([], none)
  | l :: rest =>
    match roleKeyForLayer l.name with
    | none =>
      let (rest', e) := processLayers asset rest
      (l :: rest', e)
    | some k =>
      match alistLookup asset k with
      | none => (l :: rest, some k)
      | some f =>
        let (rest', e) := processLayers asset rest
        (PsdLayer.mk l.name f l.blendMode l.opacity :: rest', e)

/-- Locate the first group with the requested name (the `for ls in
doc.LayerSets` loop) and run the update loop on it.  Returns the group list
after the call, whether a group was found, and the raised error, if any. -/
def updateGroups (asset : RoleMap) (target : String) :
    List PsGroup → List PsGroup × Bool × Option String
  | [] => ([], false, none)
  | g :: rest =>
    if g.name = target then
      let (ls, e) := processLayers asset g.layers
      (PsGroup.mk g.name ls :: rest, true, e)
    else
      let (rest', found, e) := updateGroups asset target rest
      (g :: rest', found, e)

/-- Observable outcome of `update_all_smartlayer`: the returned boolean
(`none` for an uncaught exception), the final document, and whether the
document was saved and closed. -/
structure UpdateOutcome where
  retVal : Option Bool
  doc : PsDoc
  saved : Bool
  closed : Bool
deriving DecidableEq

/-- Embedding of `update_all_smartlayer` (ps_macros.py lines 110-168):
fail when the editor is unreachable; otherwise look for the group named
`background` or `content`; when it is absent, close the document and return
false without saving; when it is present, rebind its recognised layers from
the asset (KeyError propagates, leaving the document open and unsaved), then
save, export the preview and close. -/
def update_all_smartlayer (editorOk : Bool) (doc : PsDoc) (asset : RoleMap)
    (background : Bool) : UpdateOutcome :=
  if editorOk = false then UpdateOutcome.mk (some false) doc false false
  else
    let target := if background then ("background") else ("content")
    let (gs, found, err) := updateGroups asset target doc.groups
    if found = false then UpdateOutcome.mk (some false) doc false true
    else
      match err with
      | some _ => UpdateOutcome.mk none (PsDoc.mk gs) false false
      | none => UpdateOutcome.mk (some true) (PsDoc.mk gs) true true

/-! ## Promotion (file_manager.py, `_backup_panos_on_remote` and
`_copy_panos_to_remote`) -/

/-- The remote tour bundle state relevant to backup and copy: the contents
of the `panos` directory and of the `panos_backup` directory, `none` when
the directory does not exist. -/
structure RemotePanos where
  panos : Option (List String)
  backup : Option (List String)
deriving DecidableEq

/-- Embedding of `_backup_panos_on_remote` (file_manager.py lines 267-282):
when a `panos` directory exists, delete any existing `panos_backup`, rename
`panos` to `panos_backup` and recreate an empty `panos`.  When no `panos`
directory exists, the code creates an empty `panos` and then crashes with
UnboundLocalError on the log line that reads `backup_dir`; the boolean
records completion without exception. -/
def backup_panos_on_remote (s : RemotePanos) : RemotePanos × Bool :=
  match s.panos with
  | some contents => (RemotePanos.mk (some []) (some contents), true)
  | none => (RemotePanos.mk (some []) s.backup, false)

/-- Embedding of `_copy_panos_to_remote` (file_manager.py lines 284-296) on
directory contents: when the remote `panos` directory is non-empty, log an
error and copy nothing; otherwise copy the staged panorama set into it.
Returns the remote contents after the call and whether a copy happened. -/
def copy_panos_to_remote (remote staged : List String) : List String × Bool :=
  if remote.isEmpty = false then (remote, false)
  else (staged, true)

/-! ## Dictionary lemmas -/

theorem alistLookup_set_eq {α : Type} (m : List (String × α)) (k : String) (v : α) :
    alistLookup (alistSet m k v) k = some v := by
  induction m with
  | nil => simp [alistSet, alistLookup]
  | cons h t ih =>
    obtain ⟨k', w⟩ := h
    by_cases hk : k' = k <;> simp [alistSet, alistLookup, hk, ih]

theorem alistLookup_set_ne {α : Type} (m : List (String × α)) (k k' : String) (v : α)
    (h : k' ≠ k) : alistLookup (alistSet m k v) k' = alistLookup m k' := by
  have hkk : ¬ k = k' := fun he => h he.symm
  induction m with
  | nil => simp [alistSet, alistLookup, hkk]
  | cons p t ih =>
    obtain ⟨k0, w⟩ := p
    by_cases hk : k0 = k
    · subst hk
      simp [alistSet, alistLookup, hkk]
    · simp [alistSet, alistLookup, hk, ih]

/-! ## Classifier soundness -/

theorem roleLookup_setRole (tree : FileTree) (k0 r0 f0 key role f : String)
    (h : roleLookup (setRole tree k0 r0 f0) key role = some f) :
    (key = k0 ∧ role = r0 ∧ f = f0) ∨ roleLookup tree key role = some f := by
  rw [roleLookup, Option.bind_eq_some] at h
  obtain ⟨rm', hrm', hrole⟩ := h
  by_cases hk : key = k0
  · subst hk
    cases hrm : alistLookup tree key with
    | none =>
      rw [setRole, hrm, alistLookup_set_eq] at hrm'
      obtain rfl : [(r0, f0)] = rm' := Option.some.inj hrm'
      by_cases hr : r0 = role
      · subst hr
        simp [alistLookup] at hrole
        exact Or.inl ⟨rfl, rfl, hrole.symm⟩
      · simp [alistLookup, hr] at hrole
    | some rm =>
      rw [setRole, hrm, alistLookup_set_eq] at hrm'
      obtain rfl : alistSet rm r0 f0 = rm' := Option.some.inj hrm'
      by_cases hr : role = r0
      · subst hr
        rw [alistLookup_set_eq] at hrole
        exact Or.inl ⟨rfl, rfl, (Option.some.inj hrole).symm⟩
      · rw [alistLookup_set_ne _ _ _ _ hr] at hrole
        refine Or.inr ?_
        rw [roleLookup, hrm, Option.some_bind]
        exact hrole
  · refine Or.inr ?_
    have hset : alistLookup (setRole tree k0 r0 f0) key = alistLookup tree key := by
      rw [setRole]
      cases alistLookup tree k0 with
      | none => exact alistLookup_set_ne _ _ _ _ hk
      | some rm => exact alistLookup_set_ne _ _ _ _ hk
    rw [roleLookup, ← hset, hrm', Option.some_bind]
    exact hrole

theorem roleLookup_register (tree : FileTree) (s0 key role f : String)
    (h : roleLookup (if (alistLookup tree s0).isSome then tree else alistSet tree s0 []) key role
          = some f) :
    roleLookup tree key role = some f := by
  by_cases hs : (alistLookup tree s0).isSome
  · rwa [if_pos hs] at h
  · rw [if_neg hs, roleLookup, Option.bind_eq_some] at h
    obtain ⟨rm', hrm', hrole⟩ := h
    by_cases hk : key = s0
    · subst hk
      rw [alistLookup_set_eq] at hrm'
      obtain rfl : ([] : RoleMap) = rm' := Option.some.inj hrm'
      simp [alistLookup] at hrole
    · rw [alistLookup_set_ne _ _ _ _ hk] at hrm'
      rw [roleLookup, hrm', Option.some_bind]
      exact hrole

theorem roleLookup_classifyStep (tree : FileTree) (x key role f : String)
    (h : roleLookup (classifyStep tree x) key role = some f) :
    roleLookup tree key role = some f ∨
      (f = x ∧ startsWithDot x = false ∧ endsWithPng x = true ∧
       ∃ rest, splitOnChar ('.') x = key :: rest ∧
        ((role = ("base") ∧ rest.length = 1) ∨
         (LAYER.contains role = true ∧ 2 ≤ rest.length ∧ rest.head? = some role))) := by
  by_cases h1 : startsWithDot x = true
  · refine Or.inl ?_
    simpa [classifyStep, h1] using h
  · have h1' : startsWithDot x = false := eq_false_of_ne_true h1
    by_cases h2 : endsWithPng x = true
    · cases hsplit : splitOnChar ('.') x with
      | nil =>
        refine Or.inl ?_
        simpa [classifyStep, h1', h2, hsplit] using h
      | cons s0 rest =>
        cases rest with
        | nil =>
          refine Or.inl ?_
          refine roleLookup_register tree s0 key role f ?_
          simpa [classifyStep, h1', h2, hsplit] using h
        | cons s1 rest2 =>
          cases rest2 with
          | nil =>
            have h' : roleLookup
                (setRole (if (alistLookup tree s0).isSome then tree else alistSet tree s0 [])
                  s0 ("base") x) key role = some f := by
              simpa [classifyStep, h1', h2, hsplit] using h
            rcases roleLookup_setRole _ s0 _ x key role f h' with ⟨hks, hrb, hfx⟩ | hold
            · exact Or.inr ⟨hfx, h1', h2, [s1], by simp [hsplit, hks], Or.inl ⟨hrb, rfl⟩⟩
            · exact Or.inl (roleLookup_register tree s0 key role f hold)
          | cons s2 rest3 =>
            by_cases hlay : LAYER.contains s1 = true
            · have hmem1 : s1 ∈ LAYER := by simpa using hlay
              have h' : roleLookup
                  (setRole (if (alistLookup tree s0).isSome then tree else alistSet tree s0 [])
                    s0 s1 x) key role = some f := by
                simpa [classifyStep, h1', h2, hsplit, hmem1] using h
              rcases roleLookup_setRole _ s0 _ x key role f h' with ⟨hks, hrb, hfx⟩ | hold
              · refine Or.inr ⟨hfx, h1', h2, s1 :: s2 :: rest3, by simp [hsplit, hks],
                  Or.inr ⟨?_, by simp, ?_⟩⟩
                · rw [hrb]; exact hlay
                · rw [hrb]; rfl
              · exact Or.inl (roleLookup_register tree s0 key role f hold)
            · have hmem1 : ¬ (s1 ∈ LAYER) := by simpa using hlay
              refine Or.inl ?_
              refine roleLookup_register tree s0 key role f ?_
              simpa [classifyStep, h1', h2, hsplit, hmem1] using h
    · have h2' : endsWithPng x = false := eq_false_of_ne_true h2
      refine Or.inl ?_
      simpa [classifyStep, h1', h2'] using h

theorem classify_foldl_sound (univ : List String) :
    ∀ (files : List String) (tree : FileTree),
      (∀ x ∈ files, x ∈ univ) →
      (∀ k r f, roleLookup tree k r = some f → FileOrigin univ k r f) →
      ∀ k r f, roleLookup (files.foldl classifyStep tree) k r = some f →
        FileOrigin univ k r f := by
  intro files
  induction files with
  | nil => intro tree _ hbase k r f h; exact hbase k r f h
  | cons x xs ih =>
    intro tree hmem hbase k r f h
    refine ih (classifyStep tree x) (fun y hy => hmem y (List.mem_cons_of_mem x hy)) ?_ k r f h
    intro k' r' f' h'
    rcases roleLookup_classifyStep tree x k' r' f' h' with hold | hnew
    · exact hbase k' r' f' hold
    · obtain ⟨hf, ha, hb, rest, hc, hd⟩ := hnew
      subst hf
      exact ⟨hmem f' (List.mem_cons_self f' xs), ha, hb, rest, hc, hd⟩

theorem classification_sound (files : List String) (key role f : String)
    (h : roleLookup (get_rendered_imgs files) key role = some f) :
    FileOrigin files key role f := by
  refine classify_foldl_sound files files [] (fun x hx => hx) ?_ key role f h
  intro k r f' h'
  simp [roleLookup, alistLookup] at h'

/-! ## Python string order lemmas -/

theorem strLt_irrefl (l : List Char) : strLt l l = false := by
  induction l with
  | nil => rfl
  | cons c cs ih => simp [strLt, ih]

theorem strLt_asymm {a b : List Char} (h : strLt a b = true) : strLt b a = false := by
  induction a generalizing b with
  | nil =>
    cases b with
    | nil => simp [strLt] at h
    | cons y ys => rfl
  | cons x xs ih =>
    cases b with
    | nil => simp [strLt] at h
    | cons y ys =>
      by_cases hxy : x < y
      · have hyx : ¬ y < x := lt_asymm hxy
        simp [strLt, hxy, hyx]
      · by_cases hyx : y < x
        · simp [strLt, hxy, hyx] at h
        · simp [strLt, hxy, hyx] at h ⊢
          exact ih h

theorem strLt_neg_trans {a b c : List Char} (h1 : strLt a b = false)
    (h2 : strLt b c = false) : strLt a c = false := by
  induction a generalizing b c with
  | nil =>
    cases c with
    | nil => rfl
    | cons z zs =>
      cases b with
      | nil => simp [strLt] at h2
      | cons y ys => simp [strLt] at h1
  | cons x xs ih =>
    cases c with
    | nil => rfl
    | cons z zs =>
      cases b with
      | nil => simp [strLt] at h2
      | cons y ys =>
        by_cases hxy : x < y
        · simp [strLt, hxy] at h1
        · by_cases hyz : y < z
          · simp [strLt, hyz] at h2
          · by_cases hyx : y < x
            · have hzx : z < x := lt_of_le_of_lt (not_lt.mp hyz) hyx
              simp [strLt, lt_asymm hzx, hzx]
            · by_cases hzy : z < y
              · have hzx : z < x := lt_of_lt_of_le hzy (not_lt.mp hxy)
                simp [strLt, lt_asymm hzx, hzx]
              · have hxy' : x = y := le_antisymm (not_lt.mp hyx) (not_lt.mp hxy)
                have hyz' : y = z := le_antisymm (not_lt.mp hzy) (not_lt.mp hyz)
                subst hxy'
                subst hyz'
                simp [strLt] at h1 h2 ⊢
                exact ih h1 h2

theorem strLt_false_of_eq_or {a b : List Char} (h : strLt a b = false) (hne : a ≠ b) :
    strLt b a = true := by
  induction a generalizing b with
  | nil =>
    cases b with
    | nil => exact absurd rfl hne
    | cons y ys => simp [strLt] at h
  | cons x xs ih =>
    cases b with
    | nil => rfl
    | cons y ys =>
      by_cases hxy : x < y
      · simp [strLt, hxy] at h
      · by_cases hyx : y < x
        · simp [strLt, hyx]
        · have hxy' : x = y := le_antisymm (not_lt.mp hyx) (not_lt.mp hxy)
          subst hxy'
          simp [strLt] at h ⊢
          exact ih h (fun he => hne (by rw [he]))

theorem strLt_append_left (l a b : List Char) : strLt (l ++ a) (l ++ b) = strLt a b := by
  induction l with
  | nil => rfl
  | cons c cs ih => simp [strLt, ih]

theorem strLt_append_of_lt {d1 d2 : List Char} (a b : List Char)
    (hlen : d1.length = d2.length) (h : strLt d1 d2 = true) :
    strLt (d1 ++ a) (d2 ++ b) = true := by
  induction d1 generalizing d2 with
  | nil =>
    cases d2 with
    | nil => simp [strLt] at h
    | cons y ys => simp at hlen
  | cons x xs ih =>
    cases d2 with
    | nil => simp at hlen
    | cons y ys =>
      by_cases hxy : x < y
      · simp [strLt, hxy]
      · by_cases hyx : y < x
        · simp [strLt, hxy, hyx] at h
        · simp [strLt, hxy, hyx] at h ⊢
          exact ih (by simpa using hlen) h

/-! ## Latest-entry lemmas -/

theorem foldMax_mem (l : List (List Char)) : ∀ a, l.foldl maxStep a = a ∨ l.foldl maxStep a ∈ l := by
  induction l with
  | nil => intro a; exact Or.inl rfl
  | cons b t ih =>
    intro a
    rw [List.foldl_cons]
    rcases ih (maxStep a b) with h | h
    · rw [h]
      unfold maxStep
      by_cases hs : strLt a b = true
      · rw [if_pos hs]
        exact Or.inr (List.mem_cons_self b t)
      · rw [if_neg hs]
        exact Or.inl rfl
    · exact Or.inr (List.mem_cons_of_mem b h)

theorem foldMax_ge (l : List (List Char)) :
    ∀ a x, (x = a ∨ x ∈ l) → strLt (l.foldl maxStep a) x = false := by
  induction l with
  | nil =>
    intro a x hx
    rcases hx with rfl | h
    · exact strLt_irrefl x
    · cases h
  | cons b t ih =>
    intro a x hx
    have hstep_a : strLt (maxStep a b) a = false := by
      unfold maxStep
      by_cases hs : strLt a b = true
      · rw [if_pos hs]; exact strLt_asymm hs
      · rw [if_neg hs]; exact strLt_irrefl a
    have hstep_b : strLt (maxStep a b) b = false := by
      unfold maxStep
      by_cases hs : strLt a b = true
      · rw [if_pos hs]; exact strLt_irrefl b
      · rw [if_neg hs]; exact eq_false_of_ne_true hs
    have hacc : strLt (t.foldl maxStep (maxStep a b)) (maxStep a b) = false :=
      ih (maxStep a b) (maxStep a b) (Or.inl rfl)
    rw [List.foldl_cons]
    rcases hx with rfl | hmem
    · exact strLt_neg_trans hacc hstep_a
    · rcases List.mem_cons.mp hmem with rfl | hmem'
      · exact strLt_neg_trans hacc hstep_b
      · exact ih (maxStep a b) x (Or.inr hmem')

theorem get_latest_entry_mem {dirs : List (List Char)} {m : List Char}
    (h : get_latest_entry dirs = some m) : m ∈ dirs := by
  cases dirs with
  | nil => simp [get_latest_entry] at h
  | cons e es =>
    obtain rfl : es.foldl maxStep e = m := Option.some.inj (by simpa [get_latest_entry] using h)
    rcases foldMax_mem es e with h' | h'
    · rw [h']; exact List.mem_cons_self e es
    · exact List.mem_cons_of_mem e h'

theorem get_latest_entry_ge {dirs : List (List Char)} {m : List Char}
    (h : get_latest_entry dirs = some m) : ∀ x ∈ dirs, strLt m x = false := by
  cases dirs with
  | nil => simp [get_latest_entry] at h
  | cons e es =>
    obtain rfl : es.foldl maxStep e = m := Option.some.inj (by simpa [get_latest_entry] using h)
    intro x hx
    rcases List.mem_cons.mp hx with rfl | hmem
    · exact foldMax_ge es x x (Or.inl rfl)
    · exact foldMax_ge es e x (Or.inr hmem)

/-! ## Digit and version-parsing lemmas -/

theorem digitsVal_toDigits : ∀ r : Nat, r < 11 → digitsVal (Nat.toDigits 10 r) = some r := by
  decide

theorem charDigitVal_isDigit {c : Char} (h : c.isDigit = true) :
    charDigitVal c = some (c.toNat - 48) := by
  simp [charDigitVal, h]

theorem isDigit_toNat_le {c : Char} (h : c.isDigit = true) : c.toNat ≤ 57 := by
  simp [Char.isDigit] at h
  exact h.2

theorem digitsVal_single {c : Char} (h : c.isDigit = true) :
    digitsVal [c] = some (c.toNat - 48) := by
  simp [digitsVal, h]

/-! ## Update-loop lemmas -/

theorem processLayers_ok (asset : RoleMap) (layers : List PsdLayer)
    (h : ∀ l ∈ layers, layerKeysOk asset l = true) :
    processLayers asset layers = (layers.map (replacedLayer asset), none) := by
  induction layers with
  | nil => rfl
  | cons l rest ih =>
    have hl := h l (List.mem_cons_self l rest)
    have hrest := ih (fun l' hl' => h l' (List.mem_cons_of_mem l hl'))
    cases hk : roleKeyForLayer l.name with
    | none => simp [processLayers, replacedLayer, hk, hrest]
    | some k =>
      rw [layerKeysOk, hk] at hl
      obtain ⟨f, hf⟩ := Option.isSome_iff_exists.mp hl
      simp [processLayers, replacedLayer, hk, hf, hrest]

theorem updateGroups_not_found (asset : RoleMap) (target : String) (gs : List PsGroup)
    (h : ∀ g ∈ gs, g.name ≠ target) :
    updateGroups asset target gs = (gs, false, none) := by
  induction gs with
  | nil => rfl
  | cons g rest ih =>
    have hg := h g (List.mem_cons_self g rest)
    have hrest := ih (fun g' hg' => h g' (List.mem_cons_of_mem g hg'))
    simp [updateGroups, hg, hrest]

theorem updateGroups_found (asset : RoleMap) (target : String) (gs1 gs2 : List PsGroup)
    (g : PsGroup) (hpre : ∀ g' ∈ gs1, g'.name ≠ target) (hname : g.name = target) :
    updateGroups asset target (gs1 ++ g :: gs2) =
      (gs1 ++ PsGroup.mk g.name (processLayers asset g.layers).1 :: gs2, true,
       (processLayers asset g.layers).2) := by
  induction gs1 with
  | nil => simp [updateGroups, hname]
  | cons g1 rest ih =>
    have hg1 := hpre g1 (List.mem_cons_self g1 rest)
    have hrest := ih (fun g' hg' => hpre g' (List.mem_cons_of_mem g1 hg'))
    simp [updateGroups, hg1, hrest]

theorem get_latest_entry_isSome {dirs : List (List Char)} (h : dirs ≠ []) :
    ∃ m, get_latest_entry dirs = some m := by
  cases dirs with
  | nil => exact absurd rfl h
  | cons e es => exact ⟨es.foldl maxStep e, rfl⟩

/-! ## Claim theorems -/

/-- C1, counterexample: with only the version-1 directory of the day on
disk (no v0), the allocator does not see the date prefix v0 and returns the
v0 name, whose index 0 is neither strictly greater than the existing
same-date index 1 nor equal to the maximum plus one. -/
theorem c1_counterexample :
    get_output_path [("250101v1").data] (("250101").data) = some (("250101v0").data) ∧
    parseIdx (("250101").data) (("250101v0").data) = some 0 ∧
    parseIdx (("250101").data) (("250101v1").data) = some 1 := by
  refine ⟨?_, ?_, ?_⟩ <;> rfl

/-- C1, amended: provided every existing directory name is a six-character
date, the letter v and one decimal digit, with its date not later than
today in the Python string order, and the v0 directory of today exists
whenever any directory of today exists, the allocator returns a name whose
index is strictly greater than every existing same-date index and equal to
the existing same-date maximum plus one (zero when no same-date directory
exists). -/
theorem c1_amended (dirs : List (List Char)) (today : List Char)
    (hlen : today.length = 6)
    (hform : ∀ n ∈ dirs, ∃ d c, n = d ++ ('v') :: [c] ∧ d.length = 6 ∧ c.isDigit = true ∧
      strLt today d = false)
    (hv0 : (∃ n ∈ dirs, parseIdx today n ≠ none) → (today ++ [('v'), ('0')]) ∈ dirs) :
    ∃ out r, get_output_path dirs today = some out ∧ parseIdx today out = some r ∧
      (∀ n ∈ dirs, ∀ i, parseIdx today n = some i → i < r) ∧
      ((r = 0 ∧ ∀ n ∈ dirs, parseIdx today n = none) ∨
       (∃ n ∈ dirs, parseIdx today n = some (r - 1))) := by
  by_cases hmem : (today ++ [('v'), ('0')]) ∈ dirs
  · obtain ⟨m, hm⟩ := get_latest_entry_isSome (List.ne_nil_of_mem hmem)
    have hmmem : m ∈ dirs := get_latest_entry_mem hm
    have hge := get_latest_entry_ge hm
    obtain ⟨dm, cm, hmeq, hdm6, hcmdig, hdmle⟩ := hform m hmmem
    have hdm : dm = today := by
      by_contra hne
      have hlt : strLt dm today = true :=
        strLt_false_of_eq_or hdmle (fun he => hne he.symm)
      have habs : strLt m (today ++ [('v'), ('0')]) = true := by
        rw [hmeq]
        exact strLt_append_of_lt _ _ (by rw [hdm6, hlen]) hlt
      rw [hge _ hmem] at habs
      cases habs
    rw [hdm] at hmeq
    have hsplit7 : m = (today ++ [('v')]) ++ [cm] := by
      rw [hmeq]; simp
    have hm7 : m[7]? = some cm := by
      rw [hsplit7, List.getElem?_append_right (by simp [hlen])]
      simp [hlen]
    have hdet : determine_version_number dirs = some (cm.toNat - 48 + 1) := by
      simp [determine_version_number, hm, hm7, charDigitVal_isDigit hcmdig]
    have hout : get_output_path dirs today
        = some (today ++ ('v') :: Nat.toDigits 10 (cm.toNat - 48 + 1)) := by
      simp [get_output_path, hmem, hdet]
    have hr10 : cm.toNat - 48 + 1 < 11 := by
      have := isDigit_toNat_le hcmdig
      omega
    have hparseout : parseIdx today (today ++ ('v') :: Nat.toDigits 10 (cm.toNat - 48 + 1))
        = some (cm.toNat - 48 + 1) := by
      have heq : today ++ ('v') :: Nat.toDigits 10 (cm.toNat - 48 + 1)
          = (today ++ [('v')]) ++ Nat.toDigits 10 (cm.toNat - 48 + 1) := by simp
      rw [parseIdx, heq, if_pos (List.take_left' (by simp [hlen])),
        List.drop_left' (by simp [hlen])]
      exact digitsVal_toDigits _ hr10
    have htakem : m.take 7 = today ++ [('v')] := by
      rw [hsplit7]
      exact List.take_left' (by simp [hlen])
    have hdropm : m.drop 7 = [cm] := by
      rw [hsplit7]
      exact List.drop_left' (by simp [hlen])
    have hparsem : parseIdx today m = some (cm.toNat - 48) := by
      rw [parseIdx, if_pos htakem, hdropm]
      exact digitsVal_single hcmdig
    have hgt : ∀ n ∈ dirs, ∀ i, parseIdx today n = some i → i < cm.toNat - 48 + 1 := by
      intro n hn i hi
      obtain ⟨dn, cn, hneq, hdn6, hcndig, hdnle⟩ := hform n hn
      have hnsplit : n = (dn ++ [('v')]) ++ [cn] := by
        rw [hneq]; simp
      rw [parseIdx] at hi
      by_cases hcond : n.take 7 = today ++ [('v')]
      · rw [if_pos hcond] at hi
        have hdn : dn = today := by
          have h1 : dn ++ [('v')] = today ++ [('v')] := by
            rw [← hcond, hnsplit]
            exact (List.take_left' (by simp [hdn6])).symm
          exact List.append_cancel_right h1
        have hdropn : n.drop 7 = [cn] := by
          rw [hnsplit]
          exact List.drop_left' (by simp [hdn6])
        rw [hdropn, digitsVal_single hcndig] at hi
        obtain rfl : cn.toNat - 48 = i := Option.some.inj hi
        have hmn : strLt m n = false := hge n hn
        rw [hsplit7, hnsplit, hdn, strLt_append_left] at hmn
        have hnlt : ¬ cm < cn := by
          intro hcc
          simp [strLt, hcc] at hmn
        have hle : cn.toNat ≤ cm.toNat := Nat.le_of_not_lt (fun hh => hnlt hh)
        omega
      · rw [if_neg hcond] at hi
        cases hi
    refine ⟨_, _, hout, hparseout, hgt, Or.inr ⟨m, hmmem, ?_⟩⟩
    rw [hparsem]
    simp
  · have hnone : ∀ n ∈ dirs, parseIdx today n = none := by
      intro n hn
      by_contra hne
      exact hmem (hv0 ⟨n, hn, hne⟩)
    refine ⟨today ++ [('v'), ('0')], 0, ?_, ?_, ?_, Or.inl ⟨rfl, hnone⟩⟩
    · simp [get_output_path, hmem]
    · have heq : today ++ [('v'), ('0')] = (today ++ [('v')]) ++ [('0')] := by simp
      rw [parseIdx, heq, if_pos (List.take_left' (by simp [hlen])),
        List.drop_left' (by simp [hlen])]
      rfl
    · intro n hn i hi
      rw [hnone n hn] at hi
      cases hi

/-- Witness for C1: a contiguous single-digit history v0, v3 of one date. -/
theorem c1_amended_witness :
    ∃ out r,
      get_output_path [("250101v0").data, ("250101v3").data] (("250101").data) = some out ∧
      parseIdx (("250101").data) out = some r ∧
      (∀ n ∈ [("250101v0").data, ("250101v3").data], ∀ i,
        parseIdx (("250101").data) n = some i → i < r) ∧
      ((r = 0 ∧ ∀ n ∈ [("250101v0").data, ("250101v3").data],
          parseIdx (("250101").data) n = none) ∨
       (∃ n ∈ [("250101v0").data, ("250101v3").data],
          parseIdx (("250101").data) n = some (r - 1))) :=
  c1_amended [("250101v0").data, ("250101v3").data] (("250101").data) (by rfl)
    (by
      intro n hn
      rcases List.mem_cons.mp hn with rfl | hn2
      · exact ⟨("250101").data, ('0'), by rfl, by rfl, by rfl, by rfl⟩
      · rcases List.mem_cons.mp hn2 with rfl | hn3
        · exact ⟨("250101").data, ('3'), by rfl, by rfl, by rfl, by rfl⟩
        · cases hn3)
    (by
      intro h2
      decide)

/-- C2, counterexample: in the directory of the spec example, the file
door.base123.png has three dot-segments with an unknown middle segment, so
the classifier records no base entry for the key door, against the claimed
output in which door maps to a base entry. -/
theorem c2_counterexample :
    roleLookup (get_rendered_imgs
        [("door.base123.png"), ("door.Ambient_Occlusion.png"), ("door.Glare.png"),
         ("window.png")])
      ("door") ("base") = none := by
  rfl

/-- C2, amended: every binding of the classifier output comes from a visible
png file whose first dot-segment is the key, under base exactly when it has
two segments and under a known overlay role exactly when it has more than
two segments whose second is that role; on the spec example the key door
receives only the two overlay entries and no base entry, while window
receives a base entry. -/
theorem c2_amended :
    (∀ (files : List String) (key role f : String),
        roleLookup (get_rendered_imgs files) key role = some f → FileOrigin files key role f) ∧
    get_rendered_imgs
        [("door.base123.png"), ("door.Ambient_Occlusion.png"), ("door.Glare.png"),
         ("window.png")]
      = [(("door"), [(("Ambient_Occlusion"), ("door.Ambient_Occlusion.png")),
                     (("Glare"), ("door.Glare.png"))]),
         (("window"), [(("base"), ("window.png"))])] :=
  ⟨classification_sound, by rfl⟩

/-- Witness for C2: the invariant applied to a concrete one-file listing. -/
theorem c2_amended_witness : FileOrigin [("window.png")] ("window") ("base") ("window.png") :=
  c2_amended.1 [("window.png")] ("window") ("base") ("window.png") (by rfl)

/-- C10: only files whose name ends in .png ever appear in the classifier
output, whether as a base entry or as an overlay role entry. -/
theorem c10_png_only (files : List String) (key role f : String)
    (h : roleLookup (get_rendered_imgs files) key role = some f) :
    endsWithPng f = true :=
  (classification_sound files key role f h).2.2.1

/-- Witness for C10 at a concrete listing. -/
theorem c10_png_only_witness : endsWithPng ("window.png") = true :=
  c10_png_only [("window.png")] ("window") ("base") ("window.png") (by rfl)

/-- C3: with a reachable editor and an asset holding a base role, when the
artifact file already exists `create_new_psd` returns false, logs the
existing-artifact error lines and leaves the filesystem unchanged; for a
fresh base-name key the first call succeeds and writes the artifact and its
preview, and a second identical call fails on the guard with zero filesystem
mutation. -/
theorem c3_no_overwrite :
    (∀ (fs : List String) (img : RoleMap) (out : String) (bg : Option RoleMap)
        (basefile : String),
        alistLookup img ("base") = some basefile →
        fs.contains (psdPath out basefile) = true →
        create_new_psd true img out bg fs
          = (CreateResult.ret false, fs, existsLog (psdPath out basefile))) ∧
    (∀ (fs : List String) (img : RoleMap) (out : String) (basefile : String),
        alistLookup img ("base") = some basefile →
        (alistLookup img ("Ambient_Occlusion")).isSome = true →
        (alistLookup img ("Glare")).isSome = true →
        fs.contains (psdPath out basefile) = false →
        create_new_psd true img out none fs
            = (CreateResult.ret true, fs ++ [psdPath out basefile, jpgPath out basefile], []) ∧
          create_new_psd true img out none (fs ++ [psdPath out basefile, jpgPath out basefile])
            = (CreateResult.ret false, fs ++ [psdPath out basefile, jpgPath out basefile],
               existsLog (psdPath out basefile))) := by
  constructor
  · intro fs img out bg basefile hb hc
    have hmem : psdPath out basefile ∈ fs := by simpa using hc
    simp [create_new_psd, hb, hmem]
  · intro fs img out basefile hb hao hg hc
    have hnmem : psdPath out basefile ∉ fs := by simpa using hc
    obtain ⟨af, haf⟩ := Option.isSome_iff_exists.mp hao
    obtain ⟨gf, hgf⟩ := Option.isSome_iff_exists.mp hg
    have hstack : (insert_render_stack img ("content")).2 = none := by
      simp [insert_render_stack, hb, haf, hgf]
    constructor
    · simp [create_new_psd, hb, hnmem, hstack]
    · have hmem2 : psdPath out basefile ∈ fs ++ [psdPath out basefile, jpgPath out basefile] := by
        simp
      simp [create_new_psd, hb, hmem2]

/-- Witness for C3: the guard and the double-call property at a concrete
asset and output directory. -/
theorem c3_no_overwrite_witness :
    create_new_psd true [(("base"), ("window.png"))] ("psds") none
        [psdPath ("psds") ("window.png")]
      = (CreateResult.ret false, [psdPath ("psds") ("window.png")],
         existsLog (psdPath ("psds") ("window.png"))) ∧
    (create_new_psd true
          [(("base"), ("window.png")), (("Ambient_Occlusion"), ("window.Ambient_Occlusion.png")),
           (("Glare"), ("window.Glare.png"))] ("psds") none []
        = (CreateResult.ret true,
           [] ++ [psdPath ("psds") ("window.png"), jpgPath ("psds") ("window.png")], []) ∧
      create_new_psd true
          [(("base"), ("window.png")), (("Ambient_Occlusion"), ("window.Ambient_Occlusion.png")),
           (("Glare"), ("window.Glare.png"))] ("psds") none
          ([] ++ [psdPath ("psds") ("window.png"), jpgPath ("psds") ("window.png")])
        = (CreateResult.ret false,
           [] ++ [psdPath ("psds") ("window.png"), jpgPath ("psds") ("window.png")],
           existsLog (psdPath ("psds") ("window.png")))) :=
  ⟨c3_no_overwrite.1 [psdPath ("psds") ("window.png")] [(("base"), ("window.png"))]
      ("psds") none ("window.png") (by rfl) (by rfl),
   c3_no_overwrite.2 []
      [(("base"), ("window.png")), (("Ambient_Occlusion"), ("window.Ambient_Occlusion.png")),
       (("Glare"), ("window.Glare.png"))] ("psds") ("window.png")
      (by rfl) (by rfl) (by rfl) (by rfl)⟩

/-- C4: evaluating `_insert_render_stack` on an asset that has the base role
but neither overlay role shows the code adds the base layer and then raises
UnboundLocalError at the return statement (which reads the never-assigned
ambient and glare layer variables) instead of completing successfully. -/
theorem c4_insert_missing_overlays :
    insert_render_stack [(("base"), ("window.png"))] ("content")
      = ((("content"), [PsdLayer.mk ("base") ("window.png") none none]),
         some (PyError.unboundLocal ("ambient_layer"))) := by
  rfl

/-- C5: when no layer group carries the requested group name,
`update_all_smartlayer` closes the document, saves nothing, leaves the
document contents unchanged, and returns false. -/
theorem c5_missing_group (doc : PsDoc) (asset : RoleMap) (background : Bool)
    (h : ∀ g ∈ doc.groups, g.name ≠ (if background then ("background") else ("content"))) :
    update_all_smartlayer true doc asset background
      = UpdateOutcome.mk (some false) doc false true := by
  simp [update_all_smartlayer, updateGroups_not_found asset _ doc.groups h]

/-- Witness for C5: requesting the background group against an artifact with
only a content group. -/
theorem c5_missing_group_witness :
    update_all_smartlayer true (PsDoc.mk [PsGroup.mk ("content") []]) [] true
      = UpdateOutcome.mk (some false) (PsDoc.mk [PsGroup.mk ("content") []]) false true :=
  c5_missing_group (PsDoc.mk [PsGroup.mk ("content") []]) [] true (by decide)

/-- C6, counterexample: a content group holding a glare layer updated from
an asset without the Glare role makes the update raise KeyError (no normal
return), instead of leaving the layer unchanged and completing. -/
theorem c6_counterexample :
    (update_all_smartlayer true
        (PsDoc.mk [PsGroup.mk ("content") [PsdLayer.mk ("glare") ("old.png") none none]])
        [(("base"), ("b.png"))] false).retVal = none := by
  rfl

/-- C6, amended: when every recognised layer name in the located group has
its role key present in the asset, the update completes, saves and closes,
rebinding exactly the recognised layers; a layer whose name is not one of
base, glare or ambient is left unchanged.  A recognised layer whose role key
is absent instead raises KeyError (see the counterexample). -/
theorem c6_amended (doc : PsDoc) (asset : RoleMap) (background : Bool)
    (gs1 gs2 : List PsGroup) (g : PsGroup)
    (hdoc : doc.groups = gs1 ++ g :: gs2)
    (hpre : ∀ g' ∈ gs1, g'.name ≠ (if background then ("background") else ("content")))
    (hname : g.name = (if background then ("background") else ("content")))
    (hkeys : ∀ l ∈ g.layers, layerKeysOk asset l = true) :
    update_all_smartlayer true doc asset background
        = UpdateOutcome.mk (some true)
            (PsDoc.mk (gs1 ++ PsGroup.mk g.name (g.layers.map (replacedLayer asset)) :: gs2))
            true true ∧
      ∀ l : PsdLayer, roleKeyForLayer l.name = none → replacedLayer asset l = l := by
  constructor
  · have hupd := updateGroups_found asset _ gs1 gs2 g hpre hname
    rw [processLayers_ok asset g.layers hkeys] at hupd
    simp [update_all_smartlayer, hdoc, hupd]
  · intro l hl
    simp [replacedLayer, hl]

/-- Witness for C6: an update of a content group with an unrecognised extra
layer and a base layer, from an asset holding the base role. -/
theorem c6_amended_witness :
    update_all_smartlayer true
        (PsDoc.mk [PsGroup.mk ("content")
          [PsdLayer.mk ("extra") ("x.png") none none, PsdLayer.mk ("base") ("old.png") none none]])
        [(("base"), ("new.png"))] false
      = UpdateOutcome.mk (some true)
          (PsDoc.mk [PsGroup.mk ("content")
            [PsdLayer.mk ("extra") ("x.png") none none,
             PsdLayer.mk ("base") ("new.png") none none]])
          true true :=
  (c6_amended
    (PsDoc.mk [PsGroup.mk ("content")
      [PsdLayer.mk ("extra") ("x.png") none none, PsdLayer.mk ("base") ("old.png") none none]])
    [(("base"), ("new.png"))] false [] []
    (PsGroup.mk ("content")
      [PsdLayer.mk ("extra") ("x.png") none none, PsdLayer.mk ("base") ("old.png") none none])
    (by rfl) (by decide) (by rfl) (by decide)).1

/-- C7: when the remote panos directory is non-empty, the copying step
performs no copy and the remote contents after the call are exactly the
contents before the call. -/
theorem c7_nonempty_remote (remote staged : List String) (h : remote ≠ []) :
    copy_panos_to_remote remote staged = (remote, false) := by
  cases remote with
  | nil => exact absurd rfl h
  | cons a t => rfl

/-- Witness for C7 at concrete directory contents. -/
theorem c7_nonempty_remote_witness :
    copy_panos_to_remote [("pano1.jpg")] [("new1.jpg")] = ([("pano1.jpg")], false) :=
  c7_nonempty_remote [("pano1.jpg")] [("new1.jpg")] (by decide)

/-- C8: whenever a prior remote panos directory exists, the backup step
replaces whatever backup directory existed with the current panos contents
and recreates an empty panos directory, completing without exception; the
state holds at most one backup directory by construction. -/
theorem c8_backup_swap (s : RemotePanos) (c : List String) (h : s.panos = some c) :
    backup_panos_on_remote s = (RemotePanos.mk (some []) (some c), true) := by
  obtain ⟨p, b⟩ := s
  obtain rfl : p = some c := h
  rfl

/-- Witness for C8: a remote store with both a panos directory and a stale
backup. -/
theorem c8_backup_swap_witness :
    backup_panos_on_remote (RemotePanos.mk (some [("a.jpg")]) (some [("old.jpg")]))
      = (RemotePanos.mk (some []) (some [("a.jpg")]), true) :=
  c8_backup_swap (RemotePanos.mk (some [("a.jpg")]) (some [("old.jpg")])) [("a.jpg")] rfl

/-- C9, counterexample: `_get_latest_entry` applies no dot filter, so on a
renderings root whose only subdirectory is dot-named it returns that
dot-named directory. -/
theorem c9_counterexample :
    get_latest_entry [(".hidden").data] = some ((".hidden").data) ∧
      ((".hidden").data).head? = some ('.') := by
  constructor
  · rfl
  · rfl

/-- C9, amended: the classifier listings do exclude dot-entries, but
`_get_latest_entry` filters nothing: it returns the maximum of all
subdirectory names in the Python string order, dot-named or not. -/
theorem c9_amended :
    (∀ (entries : List (List Char)) (m : List Char),
        get_latest_entry entries = some m → m ∈ entries ∧ ∀ x ∈ entries, strLt m x = false) ∧
    (∀ (files : List String) (key role f : String),
        roleLookup (get_rendered_imgs files) key role = some f →
          startsWithDot f = false) :=
  ⟨fun _ _ h => ⟨get_latest_entry_mem h, get_latest_entry_ge h⟩,
   fun files key role f h => (classification_sound files key role f h).2.1⟩

/-- Witness for C9 at concrete inputs. -/
theorem c9_amended_witness :
    (".hidden").data ∈ [(".hidden").data] ∧ startsWithDot ("window.png") = false :=
  ⟨(c9_amended.1 [(".hidden").data] ((".hidden").data) (by rfl)).1,
   c9_amended.2 [("window.png")] ("window") ("base") ("window.png") (by rfl)⟩

end VrayPsVr
